import Mathlib

/-
  Shallow embedding of the eventcpp header (final revision of
  include/eventcpp/event.hpp): the namespace `event` with the
  `details::invokable_abstract` hierarchy and the `event<TRet(Args...)>`
  channel class.

  Modelling conventions:
  * A C++ function pointer (or member-function pointer) stored in a wrapper
    is `CPtr F`: either nullptr or a non-null pointer carrying the raw byte
    representation of the stored pointer member together with the designated
    behaviour.  The source never compares pointers except against nullptr;
    identity is derived from the bytes, as the source does.
  * `get_func_ptr` in the source builds a std::string from the address of the
    stored pointer member, i.e. it reads the member bytes up to the first NUL
    byte; `cstr` models this truncation.
  * std::hash<std::string> and std::hash<uintptr_t> are implementation
    defined; they are modelled by concrete deterministic stand-ins (FNV-1a,
    identity) that depend only on the hashed value, which is all the standard
    guarantees and all the development relies on.  size_t arithmetic is
    modelled on Nat with explicit reduction mod 2^64.
  * The std::unordered_set registry is modelled as a List in iteration order.
    emplace keeps the stored set unchanged exactly when an already stored
    element is equivalent to the new one under the container KeyEqual
    predicate (`InvokableComparator`); implementations consult only the
    bucket of the new element, modelled as the elements of equal hash.
  * A receiver object is identified by its address (`objAddr`); a real C++
    object never has address 0, the sentinel `reinterpret_cast<uintptr_t>(nullptr)`.
  * Dispatch returns, besides the Except result, the trace of invokables
    whose wrapped callable actually ran, in iteration order; this makes the
    side effects performed during one dispatch observable.
-/

namespace EventCpp

abbrev Bytes := List Nat

/-- Reading a `const char*` as a std::string: the bytes up to the first NUL.
This is what `std::string tmpstr(tmp)` does in `get_func_ptr`. -/
def cstr (raw : Bytes) : Bytes := raw.takeWhile (fun b => b != 0)

/-- A C++ pointer to a callable: nullptr, or a pointer with a raw byte
representation (of the stored pointer member) and the designated behaviour. -/
inductive CPtr (F : Type) : Type where
  | null : CPtr F
  | ptr (raw : Bytes) (f : F) : CPtr F

/-- Raw bytes of the stored pointer member; a null pointer member is
represented by all-zero bytes. -/
def CPtr.rawBytes {F : Type} : CPtr F → Bytes
  | .null => List.replicate 8 0
  | .ptr raw _ => raw

/-- The only error kind the source raises: std::bad_function_call. -/
inductive CppError : Type where
  | badFunctionCall : CppError
deriving DecidableEq

/-- The two concrete shapes of `details::invokable_abstract<TRet, Args...>`:
`invokable_func` (a free/static function wrapper) and `invokable_member`
(a member-function pointer plus a reference to the receiver, identified by
its address; the behaviour is applied to the receiver address). -/
inductive Invokable (A R : Type) : Type where
  | func (fp : CPtr (A → R)) : Invokable A R
  | member (fp : CPtr (Nat → A → R)) (objAddr : Nat) : Invokable A R

/-- `operator()` of the wrappers: both first check
`_func == nullptr` (and, for members, `&_obj == nullptr`) and throw
std::bad_function_call; otherwise they std::invoke the wrapped callable. -/
def Invokable.call {A R : Type} : Invokable A R → A → Except CppError R
  | .func .null, _ => .error .badFunctionCall
  | .func (.ptr _ f), x => .ok (f x)
  | .member .null _, _ => .error .badFunctionCall
  | .member (.ptr _ f) a, x =>
      if a = 0 then .error .badFunctionCall else .ok (f a x)

/-- `get_func_ptr`: the identity string read from the bytes of the stored
pointer member, truncated at the first NUL. Identical in both wrappers. -/
def Invokable.get_func_ptr {A R : Type} : Invokable A R → Bytes
  | .func fp => cstr fp.rawBytes
  | .member fp _ => cstr fp.rawBytes

/-- `get_obj_ptr`: `reinterpret_cast<uintptr_t>(nullptr)` (that is 0) for the
plain wrapper, the receiver address for the bound wrapper. -/
def Invokable.get_obj_ptr {A R : Type} : Invokable A R → Nat
  | .func _ => 0
  | .member _ a => a

def size_t_mod : Nat := 2 ^ 64

/-- Model of std::hash<std::string> (implementation defined): FNV-1a over the
bytes, a deterministic function of the string content only. -/
def hashString (s : Bytes) : Nat :=
  s.foldl (fun h b => ((h ^^^ (b % 256)) * 1099511628211) % size_t_mod)
    14695981039346656037

/-- Model of std::hash<uintptr_t> (implementation defined): identity mod 2^64
as in common standard libraries. -/
def hashUIntPtr (n : Nat) : Nat := n % size_t_mod

/-- `get_hash`: the plain wrapper hashes only the identity string; the bound
wrapper mixes in the receiver address hash with the golden-ratio combine
`func_hash ^ (obj_hash + 0x9e3779b9 + (func_hash << 6) + (func_hash >> 2))`,
all on size_t. -/
def Invokable.get_hash {A R : Type} : Invokable A R → Nat
  | .func fp => hashString (cstr fp.rawBytes)
  | .member fp a =>
      let func_hash := hashString (cstr fp.rawBytes)
      let obj_hash := hashUIntPtr a
      func_hash ^^^
        ((obj_hash + 0x9e3779b9 + ((func_hash <<< 6) % size_t_mod) +
          (func_hash >>> 2)) % size_t_mod)

/-- `details::operator!=`: as written in the source,
`lhs.get_func_ptr() != rhs.get_func_ptr() && lhs.get_obj_ptr() != rhs.get_obj_ptr()`
(conjunction of the component inequalities). -/
def inv_ne {A R : Type} (lhs rhs : Invokable A R) : Bool :=
  (lhs.get_func_ptr != rhs.get_func_ptr) && (lhs.get_obj_ptr != rhs.get_obj_ptr)

/-- `details::operator==`:
`lhs.get_func_ptr() == rhs.get_func_ptr() && lhs.get_obj_ptr() == rhs.get_obj_ptr()`. -/
def inv_eq {A R : Type} (lhs rhs : Invokable A R) : Bool :=
  (lhs.get_func_ptr == rhs.get_func_ptr) && (lhs.get_obj_ptr == rhs.get_obj_ptr)

/-- The channel `event<TRet(Args...)>`: its `_invokables` unordered_set,
modelled as a list in iteration order. -/
structure event (A R : Type) : Type where
  invokables : List (Invokable A R)

/-- `InvokableHasher`: delegates to `get_hash`. -/
def InvokableHasher {A R : Type} (i : Invokable A R) : Nat := i.get_hash

/-- `InvokableComparator`, the KeyEqual predicate the unordered_set is
instantiated with: it returns `(*lhs) != (*rhs)` (the source passes the
inequality operator where an equality predicate is expected). -/
def InvokableComparator {A R : Type} (lhs rhs : Invokable A R) : Bool :=
  inv_ne lhs rhs

/-- `unordered_set::emplace`: the new element is not stored exactly when an
element of its bucket (equal hash under `InvokableHasher`) is equivalent to
it under `InvokableComparator`; otherwise it is added to the set. -/
def emplace {A R : Type} (s : List (Invokable A R)) (e : Invokable A R) :
    List (Invokable A R) :=
  if s.any (fun x => (InvokableHasher x == InvokableHasher e) &&
      InvokableComparator x e)
  then s else s ++ [e]

/-- `attach(TFuncPtr func)`: emplaces a fresh `invokable_func`. -/
def event.attach {A R : Type} (ev : event A R) (fp : CPtr (A → R)) :
    event A R :=
  ⟨emplace ev.invokables (.func fp)⟩

/-- `attach(TRet(TClass::* func)(Args...), TClass& obj)`: emplaces a fresh
`invokable_member` for the method and receiver. -/
def event.attach_member {A R : Type} (ev : event A R)
    (fp : CPtr (Nat → A → R)) (obj : Nat) : event A R :=
  ⟨emplace ev.invokables (.member fp obj)⟩

/-- Body of `event::remove`: find_if the first stored element with
`(*element) == invokable` and erase it; no effect when none matches. -/
def removeAux {A R : Type} :
    List (Invokable A R) → Invokable A R → List (Invokable A R)
  | [], _ => []
  | x :: xs, key => if inv_eq x key then xs else x :: removeAux xs key

/-- `event::remove`. -/
def event.remove {A R : Type} (ev : event A R) (key : Invokable A R) :
    event A R :=
  ⟨removeAux ev.invokables key⟩

/-- `detach(TFuncPtr func)`: builds the same `invokable_func` key attach
would have produced and removes the matching entry. -/
def event.detach {A R : Type} (ev : event A R) (fp : CPtr (A → R)) :
    event A R :=
  ev.remove (.func fp)

/-- `detach(TFunc TClass::* func, TClass& obj)`. -/
def event.detach_member {A R : Type} (ev : event A R)
    (fp : CPtr (Nat → A → R)) (obj : Nat) : event A R :=
  ev.remove (.member fp obj)

/-- The non-void `operator()`: `_TRet ret;` (uninitialized, modelled as the
explicit `ret` argument), then the range-for overwrites `ret` with each
subscriber result and the final value is returned.  A throw from a
subscriber propagates at once.  The second component is the trace of
invokables whose wrapped callable actually ran, in iteration order. -/
def runNonVoid {A R : Type} :
    List (Invokable A R) → A → R → Except CppError R × List (Invokable A R)
  | [], _, ret => (.ok ret, [])
  | i :: rest, x, _ =>
      match i.call x with
      | .error e => (.error e, [])
      | .ok v => ((runNonVoid rest x v).1, i :: (runNonVoid rest x v).2)

/-- The void `operator()`: same loop, results discarded. -/
def runVoid {A R : Type} :
    List (Invokable A R) → A → Except CppError Unit × List (Invokable A R)
  | [], _ => (.ok (), [])
  | i :: rest, x =>
      match i.call x with
      | .error e => (.error e, [])
      | .ok _ => ((runVoid rest x).1, i :: (runVoid rest x).2)

/-- Channel invocation, non-void return type. -/
def event.invoke {A R : Type} (ev : event A R) (x : A) (uninit : R) :
    Except CppError R × List (Invokable A R) :=
  runNonVoid ev.invokables x uninit

/-- Channel invocation, void return type. -/
def event.invoke_void {A R : Type} (ev : event A R) (x : A) :
    Except CppError Unit × List (Invokable A R) :=
  runVoid ev.invokables x

/-- A bound invokable wraps a reference to a real object, whose address is
never the null sentinel; plain invokables carry no receiver. -/
def valid_receiver {A R : Type} : Invokable A R → Prop
  | .func _ => True
  | .member _ a => a ≠ 0

/-- Sample free-function pointer used in concrete evaluation theorems. -/
def pInc : CPtr (Nat → Nat) := .ptr [4] (fun n => n + 1)

/-- Sample free-function pointer. -/
def pAdd : CPtr (Nat → Nat) := .ptr [1] (fun n => n + 10)

/-- Sample free-function pointer. -/
def pMul : CPtr (Nat → Nat) := .ptr [2] (fun n => n * 3)

/-- Sample method pointer (behaviour applied to the receiver address). -/
def mAdd : CPtr (Nat → Nat → Nat) := .ptr [7] (fun a x => a + x)

/-- Sample free-function pointer whose bytes coincide with `mBound`. -/
def pPlain : CPtr (Nat → Nat) := .ptr [9] (fun n => n)

/-- Sample method pointer whose bytes coincide with `pPlain`. -/
def mBound : CPtr (Nat → Nat → Nat) := .ptr [9] (fun _ x => x)

/- ------------------------------------------------------------------ -/
/- Helper lemmas (shared)                                             -/
/- ------------------------------------------------------------------ -/

theorem inv_eq_refl {A R : Type} (i : Invokable A R) : inv_eq i i = true := by
  simp [inv_eq]

theorem runNonVoid_cons_ok {A R : Type} {i : Invokable A R}
    {rest : List (Invokable A R)} {x : A} {v : R} (u : R)
    (hi : i.call x = .ok v) :
    runNonVoid (i :: rest) x u =
      ((runNonVoid rest x v).1, i :: (runNonVoid rest x v).2) := by
  simp [runNonVoid, hi]

theorem runNonVoid_cons_error {A R : Type} {i : Invokable A R}
    {rest : List (Invokable A R)} {x : A} {e : CppError} (u : R)
    (hi : i.call x = .error e) :
    runNonVoid (i :: rest) x u = (.error e, []) := by
  simp [runNonVoid, hi]

theorem runVoid_cons_ok {A R : Type} {i : Invokable A R}
    {rest : List (Invokable A R)} {x : A} {v : R}
    (hi : i.call x = .ok v) :
    runVoid (i :: rest) x =
      ((runVoid rest x).1, i :: (runVoid rest x).2) := by
  simp [runVoid, hi]

theorem runVoid_cons_error {A R : Type} {i : Invokable A R}
    {rest : List (Invokable A R)} {x : A} {e : CppError}
    (hi : i.call x = .error e) :
    runVoid (i :: rest) x = (.error e, []) := by
  simp [runVoid, hi]

theorem runNonVoid_fail {A R : Type} {x : A} {e : CppError}
    {bad : Invokable A R} (hbad : bad.call x = .error e) :
    ∀ (pre : List (Invokable A R)) (post : List (Invokable A R)) (u : R),
      (∀ i ∈ pre, ∃ v, i.call x = .ok v) →
      runNonVoid (pre ++ bad :: post) x u = (.error e, pre) := by
  intro pre
  induction pre with
  | nil =>
      intro post u _
      simpa using runNonVoid_cons_error u hbad
  | cons i pre ih =>
      intro post u hpre
      obtain ⟨v, hv⟩ := hpre i (by simp)
      rw [List.cons_append, runNonVoid_cons_ok u hv,
        ih post v (fun j hj => hpre j (by simp [hj]))]

theorem runVoid_fail {A R : Type} {x : A} {e : CppError}
    {bad : Invokable A R} (hbad : bad.call x = .error e) :
    ∀ (pre : List (Invokable A R)) (post : List (Invokable A R)),
      (∀ i ∈ pre, ∃ v, i.call x = .ok v) →
      runVoid (pre ++ bad :: post) x = (.error e, pre) := by
  intro pre
  induction pre with
  | nil =>
      intro post _
      simpa using runVoid_cons_error hbad
  | cons i pre ih =>
      intro post hpre
      obtain ⟨v, hv⟩ := hpre i (by simp)
      rw [List.cons_append, runVoid_cons_ok hv,
        ih post (fun j hj => hpre j (by simp [hj]))]

theorem runNonVoid_all_ok {A R : Type} {x : A} :
    ∀ (pre : List (Invokable A R)) (lastInv : Invokable A R) (u : R),
      (∀ i ∈ pre ++ [lastInv], ∃ v, i.call x = .ok v) →
      (runNonVoid (pre ++ [lastInv]) x u).1 = lastInv.call x ∧
      (runNonVoid (pre ++ [lastInv]) x u).2 = pre ++ [lastInv] := by
  intro pre
  induction pre with
  | nil =>
      intro lastInv u hok
      obtain ⟨v, hv⟩ := hok lastInv (by simp)
      rw [List.nil_append, runNonVoid_cons_ok u hv]
      simp [runNonVoid, hv]
  | cons i pre ih =>
      intro lastInv u hok
      obtain ⟨v, hv⟩ := hok i (by simp)
      have hrest := ih lastInv v (fun j hj => hok j (by simp at hj ⊢; tauto))
      rw [List.cons_append, runNonVoid_cons_ok u hv]
      exact ⟨hrest.1, by rw [hrest.2]⟩

theorem runNonVoid_trace_mem {A R : Type} {x : A} :
    ∀ (l : List (Invokable A R)) (u : R) (j : Invokable A R),
      j ∈ (runNonVoid l x u).2 → j ∈ l := by
  intro l
  induction l with
  | nil => intro u j hj; simp [runNonVoid] at hj
  | cons i rest ih =>
      intro u j hj
      cases hcall : i.call x with
      | error e =>
          rw [runNonVoid_cons_error u hcall] at hj
          simp at hj
      | ok v =>
          rw [runNonVoid_cons_ok u hcall] at hj
          rcases List.mem_cons.mp hj with h | h
          · exact h ▸ List.mem_cons_self _ _
          · exact List.mem_cons_of_mem _ (ih v j h)

theorem removeAux_of_absent {A R : Type} {key : Invokable A R} :
    ∀ (l : List (Invokable A R)),
      (∀ i ∈ l, inv_eq i key = false) → removeAux l key = l := by
  intro l
  induction l with
  | nil => intro _; rfl
  | cons i rest ih =>
      intro h
      have hi := h i (by simp)
      simp [removeAux, hi, ih (fun j hj => h j (by simp [hj]))]

theorem removeAux_append_last {A R : Type} {key e : Invokable A R}
    (he : inv_eq e key = true) :
    ∀ (l : List (Invokable A R)),
      (∀ i ∈ l, inv_eq i key = false) → removeAux (l ++ [e]) key = l := by
  intro l
  induction l with
  | nil => simp [removeAux, he]
  | cons i rest ih =>
      intro h
      have hi := h i (by simp)
      simp [removeAux, hi, ih (fun j hj => h j (by simp [hj]))]

/- ------------------------------------------------------------------ -/
/- Claim theorems                                                     -/
/- ------------------------------------------------------------------ -/

/-- Claim C1 (code evaluation at the failing input): attaching the same free
function twice does NOT deduplicate.  The KeyEqual predicate the
unordered_set is instantiated with is `InvokableComparator`, which returns
`(*lhs) != (*rhs)`; two identity-equal wrappers compare `false` under it, so
the container treats them as distinct keys and stores both.  The registry
then holds two identity-equal entries and a subsequent invoke delivers to
the function twice, contradicting the claimed idempotence of attach. -/
theorem C1_attach_does_not_deduplicate :
    ((((event.mk ([] : List (Invokable Nat Nat))).attach pInc).attach
        pInc).invokables).length = 2 ∧
    inv_eq (Invokable.func pInc) (Invokable.func pInc) = true ∧
    ((((event.mk ([] : List (Invokable Nat Nat))).attach pInc).attach
        pInc).invoke 5 0).2.length = 2 ∧
    ((((event.mk ([] : List (Invokable Nat Nat))).attach pInc).attach
        pInc).invoke 5 0).1 = .ok 6 :=
  ⟨rfl, rfl, rfl, rfl⟩

/-- Claim C2 (code evaluation at the failing input): for two bound invokables
sharing the function identity but bound to different receivers (addresses 1
and 2), `operator==` returns false, but `operator!=` also returns false,
because the source defines inequality as the conjunction
`func differs AND obj differs`; the claim requires inequality to hold when
at least one component differs. -/
theorem C2_inequality_requires_both_components :
    (Invokable.member (A := Nat) (R := Nat) mAdd 1).get_func_ptr =
      (Invokable.member (A := Nat) (R := Nat) mAdd 2).get_func_ptr ∧
    (Invokable.member (A := Nat) (R := Nat) mAdd 1).get_obj_ptr ≠
      (Invokable.member (A := Nat) (R := Nat) mAdd 2).get_obj_ptr ∧
    inv_eq (Invokable.member (A := Nat) (R := Nat) mAdd 1)
      (Invokable.member mAdd 2) = false ∧
    inv_ne (Invokable.member (A := Nat) (R := Nat) mAdd 1)
      (Invokable.member mAdd 2) = false :=
  ⟨rfl, by decide, rfl, rfl⟩

/-- Claim C3: for a channel with non-void return type and a non-empty
subscriber set whose calls all succeed, invoke visits every current
subscriber exactly once (the trace equals the registry in iteration order)
and the overall result is the return value of the last invokable visited. -/
theorem C3_last_writer_wins {A R : Type} (pre : List (Invokable A R))
    (lastInv : Invokable A R) (x : A) (uninit : R)
    (hok : ∀ i ∈ pre ++ [lastInv], ∃ v, i.call x = .ok v) :
    ((event.mk (pre ++ [lastInv])).invoke x uninit).2 = pre ++ [lastInv] ∧
    ((event.mk (pre ++ [lastInv])).invoke x uninit).1 = lastInv.call x :=
  ⟨(runNonVoid_all_ok pre lastInv uninit hok).2,
   (runNonVoid_all_ok pre lastInv uninit hok).1⟩

/-- Claim C3 witness: a two-subscriber channel of signature Nat to Nat;
invoke 4 visits both and returns the value of the last one. -/
theorem C3_last_writer_wins_witness :
    (∀ i ∈ [Invokable.func pAdd] ++ [Invokable.func pMul],
        ∃ v, i.call 4 = Except.ok v) ∧
    (((event.mk ([Invokable.func pAdd] ++ [Invokable.func pMul])).invoke
        4 0).2 = [Invokable.func pAdd] ++ [Invokable.func pMul] ∧
     ((event.mk ([Invokable.func pAdd] ++ [Invokable.func pMul])).invoke
        4 0).1 = (Invokable.func pMul).call 4) := by
  have hok : ∀ i ∈ [Invokable.func pAdd] ++ [Invokable.func pMul],
      ∃ v, i.call 4 = Except.ok v := by
    intro i hi
    simp only [List.cons_append, List.nil_append, List.mem_cons,
      List.not_mem_nil, or_false] at hi
    rcases hi with h | h
    · exact ⟨14, by rw [h]; rfl⟩
    · exact ⟨12, by rw [h]; rfl⟩
  exact ⟨hok, C3_last_writer_wins [Invokable.func pAdd] (Invokable.func pMul)
    4 0 hok⟩

/-- Claim C4: dispatch is fail-fast.  If one subscriber raises, the error
propagates out of invoke at once, subscribers after the failing one are not
invoked, and the calls already performed in that dispatch (the trace, which
equals exactly the successful prefix) are not rolled back.  Both the
non-void and the void operator behave this way. -/
theorem C4_fail_fast {A R : Type} (pre post : List (Invokable A R))
    (bad : Invokable A R) (x : A) (uninit : R) (e : CppError)
    (hpre : ∀ i ∈ pre, ∃ v, i.call x = .ok v)
    (hbad : bad.call x = .error e) :
    (event.mk (pre ++ bad :: post)).invoke x uninit = (.error e, pre) ∧
    (event.mk (pre ++ bad :: post)).invoke_void x = (.error e, pre) :=
  ⟨runNonVoid_fail hbad pre post uninit hpre, runVoid_fail hbad pre post hpre⟩

/-- Claim C4 witness: the second of three subscribers holds a null function
pointer; the first runs, the third does not, the error propagates. -/
theorem C4_fail_fast_witness :
    (∀ i ∈ [Invokable.func pAdd], ∃ v, i.call 0 = Except.ok v) ∧
    (Invokable.func (A := Nat) (R := Nat) .null).call 0 =
      Except.error .badFunctionCall ∧
    ((event.mk ([Invokable.func pAdd] ++
        Invokable.func .null :: [Invokable.func pMul])).invoke 0 0 =
      (Except.error CppError.badFunctionCall, [Invokable.func pAdd]) ∧
     (event.mk ([Invokable.func pAdd] ++
        Invokable.func .null :: [Invokable.func pMul])).invoke_void 0 =
      (Except.error CppError.badFunctionCall, [Invokable.func pAdd])) := by
  have hpre : ∀ i ∈ [Invokable.func pAdd], ∃ v, i.call 0 = Except.ok v := by
    intro i hi
    simp only [List.mem_singleton] at hi
    exact ⟨10, by rw [hi]; rfl⟩
  exact ⟨hpre, rfl, C4_fail_fast [Invokable.func pAdd] [Invokable.func pMul]
    (Invokable.func .null) 0 0 CppError.badFunctionCall hpre rfl⟩

/-- Claim C5 counterexample: the claim quantifies over every channel, but on
a channel that already holds an entry for f, attach(f) inserts a duplicate
(see the C1 bug), detach(f) removes only the first matching entry, and a
subsequent invoke still performs one call to f, not zero. -/
theorem C5_counterexample :
    (((((event.mk ([] : List (Invokable Nat Nat))).attach pInc).attach
        pInc).detach pInc).invoke 3 0).2.countP
        (fun j => inv_eq j (.func pInc)) = 1 ∧
    ¬ ((((((event.mk ([] : List (Invokable Nat Nat))).attach pInc).attach
        pInc).detach pInc).invoke 3 0).2.countP
        (fun j => inv_eq j (.func pInc)) = 0) :=
  ⟨rfl, by decide⟩

/-- Claim C5 (amended): for every channel holding no entry identity-equal to
f, attach(f) followed by detach(f) restores the channel exactly, invoking
such a channel performs zero calls to any invokable identity-equal to f, and
detach of the non-present identity is a no-op that leaves the subscriber set
unchanged and raises no error. -/
theorem C5_detach_precision {A R : Type} (ev : event A R) (fp : CPtr (A → R))
    (x : A) (uninit : R)
    (habs : ∀ i ∈ ev.invokables, inv_eq i (.func fp) = false) :
    (ev.attach fp).detach fp = ev ∧
    ((ev.invoke x uninit).2.countP (fun j => inv_eq j (.func fp))) = 0 ∧
    ev.detach fp = ev := by
  refine ⟨?_, ?_, ?_⟩
  · show event.mk (removeAux (emplace ev.invokables (.func fp)) (.func fp)) = ev
    by_cases h : ev.invokables.any (fun xx =>
        (InvokableHasher xx == InvokableHasher (.func fp)) &&
        InvokableComparator xx (.func fp))
    · simp [emplace, h, removeAux_of_absent _ habs]
    · simp [emplace, h, removeAux_append_last (inv_eq_refl _) _ habs]
  · rw [List.countP_eq_zero]
    intro j hj
    have hjr := habs j (runNonVoid_trace_mem ev.invokables uninit j hj)
    simp [hjr]
  · show event.mk (removeAux ev.invokables (.func fp)) = ev
    simp [removeAux_of_absent _ habs]

/-- Claim C5 witness: the empty channel holds nothing identity-equal to f. -/
theorem C5_detach_precision_witness :
    (∀ i ∈ (event.mk ([] : List (Invokable Nat Nat))).invokables,
        inv_eq i (.func pInc) = false) ∧
    (((event.mk ([] : List (Invokable Nat Nat))).attach pInc).detach pInc =
        event.mk [] ∧
     (((event.mk ([] : List (Invokable Nat Nat))).invoke 3 0).2.countP
        (fun j => inv_eq j (.func pInc))) = 0 ∧
     (event.mk ([] : List (Invokable Nat Nat))).detach pInc = event.mk []) := by
  have habs : ∀ i ∈ (event.mk ([] : List (Invokable Nat Nat))).invokables,
      inv_eq i (.func pInc) = false := by
    intro i hi
    simp at hi
  exact ⟨habs, C5_detach_precision (event.mk []) pInc 3 0 habs⟩

/-- Claim C6: attaching the same method on two distinct receivers (addresses
a and b, both valid) yields two independent subscriptions, both of which are
invoked during one dispatch; detach of the one bound to a removes only that
entry, leaving the one bound to b registered and invocable. -/
theorem C6_bound_identity_distinct {A R : Type} (raw : Bytes)
    (f : Nat → A → R) (a b : Nat) (x : A) (uninit : R)
    (ha : a ≠ 0) (hb : b ≠ 0) (hab : a ≠ b) :
    inv_eq (Invokable.member (.ptr raw f) a)
      (Invokable.member (.ptr raw f) b) = false ∧
    (((event.mk ([] : List (Invokable A R))).attach_member (.ptr raw f)
        a).attach_member (.ptr raw f) b).invokables =
      [.member (.ptr raw f) a, .member (.ptr raw f) b] ∧
    ((((event.mk ([] : List (Invokable A R))).attach_member (.ptr raw f)
        a).attach_member (.ptr raw f) b).invoke x uninit) =
      (.ok (f b x), [.member (.ptr raw f) a, .member (.ptr raw f) b]) ∧
    ((((event.mk ([] : List (Invokable A R))).attach_member (.ptr raw f)
        a).attach_member (.ptr raw f) b).detach_member (.ptr raw f)
        a).invokables = [.member (.ptr raw f) b] ∧
    (Invokable.member (.ptr raw f) b).call x = .ok (f b x) := by
  have ca : (Invokable.member (.ptr raw f) a).call x = .ok (f a x) := by
    simp [Invokable.call, ha]
  have cb : (Invokable.member (.ptr raw f) b).call x = .ok (f b x) := by
    simp [Invokable.call, hb]
  have hreg : (((event.mk ([] : List (Invokable A R))).attach_member
      (.ptr raw f) a).attach_member (.ptr raw f) b).invokables =
      [.member (.ptr raw f) a, .member (.ptr raw f) b] := by
    simp [event.attach_member, emplace, InvokableComparator, inv_ne,
      Invokable.get_func_ptr]
  have hdist : inv_eq (Invokable.member (.ptr raw f) a)
      (Invokable.member (.ptr raw f) b) = false := by
    simp [inv_eq, Invokable.get_obj_ptr, beq_eq_false_iff_ne.mpr hab]
  refine ⟨hdist, hreg, ?_, ?_, cb⟩
  · show runNonVoid (((event.mk ([] : List (Invokable A R))).attach_member
        (.ptr raw f) a).attach_member (.ptr raw f) b).invokables x uninit = _
    rw [hreg, runNonVoid_cons_ok uninit ca, runNonVoid_cons_ok (f a x) cb]
    simp [runNonVoid]
  · show removeAux (((event.mk ([] : List (Invokable A R))).attach_member
        (.ptr raw f) a).attach_member (.ptr raw f) b).invokables
        (.member (.ptr raw f) a) = _
    rw [hreg]
    simp [removeAux, inv_eq_refl]

/-- Claim C6 witness: same method bytes, receivers at addresses 1 and 2. -/
theorem C6_bound_identity_distinct_witness :
    ((1 : Nat) ≠ 0) ∧ ((2 : Nat) ≠ 0) ∧ ((1 : Nat) ≠ 2) ∧
    (inv_eq (Invokable.member (A := Nat) (R := Nat)
        (.ptr [7] (fun a x => a + x)) 1)
        (Invokable.member (.ptr [7] (fun a x => a + x)) 2) = false ∧
     (((event.mk ([] : List (Invokable Nat Nat))).attach_member
        (.ptr [7] (fun a x => a + x)) 1).attach_member
        (.ptr [7] (fun a x => a + x)) 2).invokables =
      [.member (.ptr [7] (fun a x => a + x)) 1,
       .member (.ptr [7] (fun a x => a + x)) 2] ∧
     ((((event.mk ([] : List (Invokable Nat Nat))).attach_member
        (.ptr [7] (fun a x => a + x)) 1).attach_member
        (.ptr [7] (fun a x => a + x)) 2).invoke 5 0) =
      (.ok 7, [.member (.ptr [7] (fun a x => a + x)) 1,
       .member (.ptr [7] (fun a x => a + x)) 2]) ∧
     ((((event.mk ([] : List (Invokable Nat Nat))).attach_member
        (.ptr [7] (fun a x => a + x)) 1).attach_member
        (.ptr [7] (fun a x => a + x)) 2).detach_member
        (.ptr [7] (fun a x => a + x)) 1).invokables =
      [.member (.ptr [7] (fun a x => a + x)) 2] ∧
     (Invokable.member (.ptr [7] (fun a x => a + x)) 2).call 5 =
       Except.ok 7) :=
  ⟨by decide, by decide, by decide,
   C6_bound_identity_distinct [7] (fun a x => a + x) 1 2 5 0
     (by decide) (by decide) (by decide)⟩

/-- Claim C7: calling a wrapper whose stored function pointer is null raises
std::bad_function_call synchronously, for both the plain and the bound
wrapper, and the error propagates out of invoke to the caller. -/
theorem C7_invalid_callable {A R : Type} (pre post : List (Invokable A R))
    (a : Nat) (x : A) (uninit : R)
    (hpre : ∀ i ∈ pre, ∃ v, i.call x = .ok v) :
    (Invokable.func (A := A) (R := R) .null).call x =
      .error .badFunctionCall ∧
    (Invokable.member (A := A) (R := R) .null a).call x =
      .error .badFunctionCall ∧
    runNonVoid (pre ++ Invokable.func .null :: post) x uninit =
      (.error .badFunctionCall, pre) ∧
    runNonVoid (pre ++ Invokable.member .null a :: post) x uninit =
      (.error .badFunctionCall, pre) := by
  have hb1 : (Invokable.func (A := A) (R := R) CPtr.null).call x =
      .error .badFunctionCall := rfl
  have hb2 : (Invokable.member (A := A) (R := R) CPtr.null a).call x =
      .error .badFunctionCall := rfl
  exact ⟨hb1, hb2, runNonVoid_fail hb1 pre post uninit hpre,
    runNonVoid_fail hb2 pre post uninit hpre⟩

/-- Claim C7 witness: a registry with one healthy subscriber in front of the
null wrapper. -/
theorem C7_invalid_callable_witness :
    (∀ i ∈ [Invokable.func pAdd], ∃ v, i.call 0 = Except.ok v) ∧
    ((Invokable.func (A := Nat) (R := Nat) .null).call 0 =
      Except.error .badFunctionCall ∧
     (Invokable.member (A := Nat) (R := Nat) .null 3).call 0 =
      Except.error .badFunctionCall ∧
     runNonVoid ([Invokable.func pAdd] ++ Invokable.func .null :: []) 0 0 =
      (Except.error CppError.badFunctionCall, [Invokable.func pAdd]) ∧
     runNonVoid ([Invokable.func pAdd] ++ Invokable.member .null 3 :: []) 0 0 =
      (Except.error CppError.badFunctionCall, [Invokable.func pAdd])) := by
  have hpre : ∀ i ∈ [Invokable.func pAdd], ∃ v, i.call 0 = Except.ok v := by
    intro i hi
    simp only [List.mem_singleton] at hi
    exact ⟨10, by rw [hi]; rfl⟩
  exact ⟨hpre, C7_invalid_callable [Invokable.func pAdd] [] 3 0 0 hpre⟩

/-- Claim C8: invoking a channel with zero subscribers succeeds trivially for
a void return type, and for a non-void return type returns the uninitialized
value unchanged without raising any empty-dispatch error. -/
theorem C8_empty_dispatch (x uninit : Nat) :
    (event.mk ([] : List (Invokable Nat Unit))).invoke_void x =
      (.ok (), []) ∧
    (event.mk ([] : List (Invokable Nat Nat))).invoke x uninit =
      (.ok uninit, []) :=
  ⟨rfl, rfl⟩

/-- Claim C9: a plain invokable and a bound invokable are never equal, even
when their function-identity bytes coincide, because the object component is
the null sentinel (0) for the plain one and the nonzero receiver address for
the bound one. -/
theorem C9_plain_never_equals_bound {A R : Type} (fp1 : CPtr (A → R))
    (fp2 : CPtr (Nat → A → R)) (a : Nat) (ha : a ≠ 0) :
    inv_eq (Invokable.func fp1) (.member fp2 a) = false ∧
    inv_eq (Invokable.member fp2 a) (.func fp1) = false := by
  have h1 : ((0 : Nat) == a) = false := beq_eq_false_iff_ne.mpr (Ne.symm ha)
  have h2 : (a == (0 : Nat)) = false := beq_eq_false_iff_ne.mpr ha
  exact ⟨by simp [inv_eq, Invokable.get_obj_ptr, h1],
         by simp [inv_eq, Invokable.get_obj_ptr, h2]⟩

/-- Claim C9 witness: pPlain and mBound share the identity bytes [9]; the
receiver sits at address 4. -/
theorem C9_plain_never_equals_bound_witness :
    ((4 : Nat) ≠ 0) ∧
    (inv_eq (Invokable.func pPlain) (.member mBound 4) = false ∧
     inv_eq (Invokable.member mBound 4) (.func pPlain) = false) :=
  ⟨by decide, C9_plain_never_equals_bound pPlain mBound 4 (by decide)⟩

/-- Claim C10: the hash is congruent with identity.  Two invokables with
valid receivers that compare equal under operator== (both identity
components match) have the same get_hash, since the hash is computed only
from the function-identity bytes and the receiver address. -/
theorem C10_hash_congruent_with_identity {A R : Type} (i j : Invokable A R)
    (hi : valid_receiver i) (hj : valid_receiver j)
    (h : inv_eq i j = true) : i.get_hash = j.get_hash := by
  cases i with
  | func fp1 =>
      cases j with
      | func fp2 =>
          simp [inv_eq, Invokable.get_func_ptr, Invokable.get_obj_ptr] at h
          simp [Invokable.get_hash, h]
      | member fp2 b =>
          simp [inv_eq, Invokable.get_func_ptr, Invokable.get_obj_ptr] at h
          exact absurd h.2.symm hj
  | member fp1 a =>
      cases j with
      | func fp2 =>
          simp [inv_eq, Invokable.get_func_ptr, Invokable.get_obj_ptr] at h
          exact absurd h.2 hi
      | member fp2 b =>
          simp [inv_eq, Invokable.get_func_ptr, Invokable.get_obj_ptr] at h
          simp [Invokable.get_hash, h.1, h.2]

/-- Claim C10 witness: two bound invokables with different behaviours but the
same identity (bytes [2], receiver address 3) hash identically. -/
theorem C10_hash_congruent_with_identity_witness :
    valid_receiver (Invokable.member (A := Nat) (R := Nat)
      (.ptr [2] (fun a x => a * x)) 3) ∧
    valid_receiver (Invokable.member (A := Nat) (R := Nat)
      (.ptr [2] (fun a x => a + x)) 3) ∧
    inv_eq (Invokable.member (A := Nat) (R := Nat)
      (.ptr [2] (fun a x => a * x)) 3)
      (Invokable.member (.ptr [2] (fun a x => a + x)) 3) = true ∧
    (Invokable.member (A := Nat) (R := Nat)
      (.ptr [2] (fun a x => a * x)) 3).get_hash =
      (Invokable.member (A := Nat) (R := Nat)
        (.ptr [2] (fun a x => a + x)) 3).get_hash :=
  ⟨by show (3 : Nat) ≠ 0; decide, by show (3 : Nat) ≠ 0; decide, rfl,
   C10_hash_congruent_with_identity _ _ (by show (3 : Nat) ≠ 0; decide)
     (by show (3 : Nat) ≠ 0; decide) rfl⟩

end EventCpp
